import Mathlib

/-!
# key_emitter_core: the load and unload hooks of the key_emitter module

Source: `src/modules/key_emitter/key_emitter_core.c`.

```c
void test_init() {
    module_register(MODULE_NAME, "core");
    print_load_message();
}

void test_deinit() {
    print_unload_message();
}
```

The three routines the hooks call are declared in headers that are not part of
the source tree at hand, and the macro `MODULE_NAME` is defined there too.  The
embedding therefore takes the host routines as a record of effectful
operations in an arbitrary monad, and `MODULE_NAME` as a parameter.  The hooks
are translated once, over that record; the theorems instantiate the monad with
state passing (a host that always returns) and with state passing over
`Except` (a host whose routines may fail).
-/

namespace KeyEmitter

/-! ## The host interface -/

/-- One call of a host routine, with its arguments. -/
inductive HostCall where
  | module_register (name category : String)
  | print_load_message
  | print_unload_message
  deriving DecidableEq, Repr

/-- The routines the translation unit expects from its environment, as effects
in a monad `m`.  All three are called as statements, so they yield `Unit`. -/
structure Host (m : Type → Type) where
  module_register : String → String → m Unit
  print_load_message : m Unit
  print_unload_message : m Unit

/-! ## The two functions of `key_emitter_core.c` -/

/-- The function `test_init`: register the module under `MODULE_NAME` with the
literal `"core"`, then print the load message. -/
def test_init {m : Type → Type} [Monad m] (host : Host m) (MODULE_NAME : String) : m Unit := do
  host.module_register MODULE_NAME "core"
  host.print_load_message

/-- The function `test_deinit`: print the unload message. -/
def test_deinit {m : Type → Type} [Monad m] (host : Host m) : m Unit := do
  host.print_unload_message

/-! ## Hosts -/

/-- A host whose routines always return: each routine is a function on the
host state `σ`. -/
abbrev StateHost (σ : Type) := Host (StateM σ)

/-- A host whose routines may fail with an error of type `ε` instead of
returning. -/
abbrev FallibleHost (ε σ : Type) := Host (StateT σ (Except ε))

/-- The host state after running `prog` from `s`. -/
def stateAfter {σ : Type} (prog : StateM σ Unit) (s : σ) : σ := (prog.run s).2

/-- Instrumentation: the same host, with every call appended to a log kept
beside the host state.  The underlying routine sees only its own state. -/
def traced {σ : Type} (h : StateHost σ) : StateHost (σ × List HostCall) where
  module_register name category := fun (s, log) =>
    (((), stateAfter (h.module_register name category) s,
      log ++ [HostCall.module_register name category]) : Unit × σ × List HostCall)
  print_load_message := fun (s, log) =>
    (((), stateAfter h.print_load_message s,
      log ++ [HostCall.print_load_message]) : Unit × σ × List HostCall)
  print_unload_message := fun (s, log) =>
    (((), stateAfter h.print_unload_message s,
      log ++ [HostCall.print_unload_message]) : Unit × σ × List HostCall)

/-- The host calls `prog` makes when started in host state `s` with an empty
log. -/
def callsMade {σ : Type} (prog : StateM (σ × List HostCall) Unit) (s : σ) : List HostCall :=
  (stateAfter prog (s, [])).2

/-- The two hooks, as the host sees them. -/
inductive Hook where
  | init
  | deinit
  deriving DecidableEq, Repr

/-- Run one hook. -/
def runHook {m : Type → Type} [Monad m] (host : Host m) (MODULE_NAME : String) : Hook → m Unit
  | Hook.init => test_init host MODULE_NAME
  | Hook.deinit => test_deinit host

/-- The host invoking a sequence of hooks, one after the other. -/
def runHooks {m : Type → Type} [Monad m] (host : Host m) (MODULE_NAME : String) :
    List Hook → m Unit
  | [] => pure ()
  | k :: ks => do
    runHook host MODULE_NAME k
    runHooks host MODULE_NAME ks

/-- The calls hook `k` makes when it is invoked after the earlier hook calls
`history`, the host having started in state `s`: the part of the log written
after `history` has run. -/
def callsAfter {σ : Type} (h : StateHost σ) (MODULE_NAME : String) (history : List Hook)
    (k : Hook) (s : σ) : List HostCall :=
  let before := stateAfter (runHooks (traced h) MODULE_NAME history) (s, [])
  let after := stateAfter (runHook (traced h) MODULE_NAME k) before
  after.2.drop before.2.length

/-- Whether a call is a call of `module_register`, whatever its arguments. -/
def HostCall.isModuleRegister : HostCall → Bool
  | HostCall.module_register _ _ => true
  | _ => false

/-! ## Helper lemmas -/

theorem stateAfter_test_init {σ : Type} (h : StateHost σ) (N : String) (s : σ) :
    stateAfter (test_init h N) s
      = stateAfter h.print_load_message (stateAfter (h.module_register N "core") s) := rfl

theorem stateAfter_test_deinit {σ : Type} (h : StateHost σ) (s : σ) :
    stateAfter (test_deinit h) s = stateAfter h.print_unload_message s := rfl

theorem traced_test_init {σ : Type} (h : StateHost σ) (N : String) (s : σ)
    (log : List HostCall) :
    stateAfter (test_init (traced h) N) (s, log)
      = (stateAfter (test_init h N) s,
          log ++ [HostCall.module_register N "core", HostCall.print_load_message]) := by
  have step : stateAfter (test_init (traced h) N) (s, log)
      = (stateAfter (test_init h N) s,
          (log ++ [HostCall.module_register N "core"]) ++ [HostCall.print_load_message]) := rfl
  rw [step, List.append_assoc]
  rfl

theorem traced_test_deinit {σ : Type} (h : StateHost σ) (s : σ) (log : List HostCall) :
    stateAfter (test_deinit (traced h)) (s, log)
      = (stateAfter (test_deinit h) s, log ++ [HostCall.print_unload_message]) := by
  rfl

theorem traced_runHook_init {σ : Type} (h : StateHost σ) (N : String)
    (st : σ × List HostCall) :
    stateAfter (runHook (traced h) N Hook.init) st
      = (stateAfter (test_init h N) st.1,
          st.2 ++ [HostCall.module_register N "core", HostCall.print_load_message]) := by
  obtain ⟨s, log⟩ := st
  exact traced_test_init h N s log

theorem traced_runHook_deinit {σ : Type} (h : StateHost σ) (N : String)
    (st : σ × List HostCall) :
    stateAfter (runHook (traced h) N Hook.deinit) st
      = (stateAfter (test_deinit h) st.1, st.2 ++ [HostCall.print_unload_message]) := by
  obtain ⟨s, log⟩ := st
  exact traced_test_deinit h s log

theorem callsAfter_init {σ : Type} (h : StateHost σ) (N : String) (history : List Hook)
    (s : σ) :
    callsAfter h N history Hook.init s
      = [HostCall.module_register N "core", HostCall.print_load_message] := by
  simp [callsAfter, traced_runHook_init]

theorem callsAfter_deinit {σ : Type} (h : StateHost σ) (N : String) (history : List Hook)
    (s : σ) :
    callsAfter h N history Hook.deinit s = [HostCall.print_unload_message] := by
  simp [callsAfter, traced_runHook_deinit]

theorem stateAfter_runHooks_cons {σ : Type} (h : StateHost σ) (N : String) (k : Hook)
    (ks : List Hook) (s : σ) :
    stateAfter (runHooks h N (k :: ks)) s
      = stateAfter (runHooks h N ks) (stateAfter (runHook h N k) s) := rfl

theorem stateAfter_runHooks_nil {σ : Type} (h : StateHost σ) (N : String) (s : σ) :
    stateAfter (runHooks h N []) s = s := rfl

theorem callsMade_test_init {σ : Type} (h : StateHost σ) (N : String) (s : σ) :
    callsMade (test_init (traced h) N) s
      = [HostCall.module_register N "core", HostCall.print_load_message] := by
  simp [callsMade, traced_test_init]

theorem callsMade_test_deinit {σ : Type} (h : StateHost σ) (s : σ) :
    callsMade (test_deinit (traced h)) s = [HostCall.print_unload_message] := by
  simp [callsMade, traced_test_deinit]

/-! ## The claims -/

/-- C1: for every host and host state, one call of `test_init` makes exactly
the calls `module_register(MODULE_NAME, "core")` and `print_load_message()`:
`module_register` is called once (the only call of that routine, and it has
these two arguments) and `print_load_message` is called once. -/
theorem test_init_calls_each_once {σ : Type} (h : StateHost σ) (MODULE_NAME : String) (s : σ) :
    (callsMade (test_init (traced h) MODULE_NAME) s).filter HostCall.isModuleRegister
        = [HostCall.module_register MODULE_NAME "core"]
    ∧ (callsMade (test_init (traced h) MODULE_NAME) s).count
        (HostCall.module_register MODULE_NAME "core") = 1
    ∧ (callsMade (test_init (traced h) MODULE_NAME) s).count HostCall.print_load_message = 1 := by
  rw [callsMade_test_init]
  simp [HostCall.isModuleRegister]

/-- C2: for every host and host state, one call of `test_deinit` makes exactly
one call of `print_unload_message`, which takes no argument, and it is the only
host call made. -/
theorem test_deinit_calls_unload_once {σ : Type} (h : StateHost σ) (s : σ) :
    (callsMade (test_deinit (traced h)) s).count HostCall.print_unload_message = 1
    ∧ (callsMade (test_deinit (traced h)) s).length = 1 := by
  rw [callsMade_test_deinit]
  simp

/-- C3: the hooks change the host state only through their delegated calls.
The state after `test_init` is the state after `module_register(MODULE_NAME,
"core")` followed by `print_load_message()`; the state after `test_deinit` is
the state after `print_unload_message()`.  The instrumented run reaches the
same host state, `test_init` never calls `print_unload_message`, and
`test_deinit` never calls `module_register` or `print_load_message`. -/
theorem hooks_only_delegate {σ : Type} (h : StateHost σ) (MODULE_NAME : String) (s : σ) :
    stateAfter (test_init h MODULE_NAME) s
        = stateAfter h.print_load_message
            (stateAfter (h.module_register MODULE_NAME "core") s)
    ∧ stateAfter (test_deinit h) s = stateAfter h.print_unload_message s
    ∧ (stateAfter (test_init (traced h) MODULE_NAME) (s, [])).1
        = stateAfter (test_init h MODULE_NAME) s
    ∧ (stateAfter (test_deinit (traced h)) (s, [])).1 = stateAfter (test_deinit h) s
    ∧ HostCall.print_unload_message ∉ callsMade (test_init (traced h) MODULE_NAME) s
    ∧ (callsMade (test_deinit (traced h)) s).filter HostCall.isModuleRegister = []
    ∧ HostCall.print_load_message ∉ callsMade (test_deinit (traced h)) s := by
  refine ⟨rfl, rfl, ?_, ?_, ?_, ?_, ?_⟩
  · rw [traced_test_init]
  · rw [traced_test_deinit]
  · simp [callsMade_test_init]
  · simp [callsMade_test_deinit, HostCall.isModuleRegister]
  · simp [callsMade_test_deinit]

/-- C4: the hooks add no failure of their own.  With host routines that may
fail, `test_init` fails with error `e` exactly when `module_register` fails
with `e`, or `module_register` returns and `print_load_message` then fails with
`e`; `test_init` returns exactly when both routines return, one after the
other; `test_deinit` has the very outcome of `print_unload_message`. -/
theorem hooks_fail_only_with_host {ε σ : Type} (h : FallibleHost ε σ) (MODULE_NAME : String)
    (s : σ) :
    (∀ e : ε, (test_init h MODULE_NAME).run s = Except.error e ↔
        ((h.module_register MODULE_NAME "core").run s = Except.error e
          ∨ ∃ s1 : σ, (h.module_register MODULE_NAME "core").run s = Except.ok ((), s1)
              ∧ h.print_load_message.run s1 = Except.error e))
    ∧ (∀ s2 : σ, (test_init h MODULE_NAME).run s = Except.ok ((), s2) ↔
        ∃ s1 : σ, (h.module_register MODULE_NAME "core").run s = Except.ok ((), s1)
          ∧ h.print_load_message.run s1 = Except.ok ((), s2))
    ∧ (test_deinit h).run s = h.print_unload_message.run s := by
  have unfolded : (test_init h MODULE_NAME).run s
      = (match (h.module_register MODULE_NAME "core").run s with
          | Except.error e => Except.error e
          | Except.ok (_, s1) => h.print_load_message.run s1) := by
    show (h.module_register MODULE_NAME "core" s >>= fun p => h.print_load_message p.2)
      = (match h.module_register MODULE_NAME "core" s with
          | Except.error e => Except.error e
          | Except.ok (_, s1) => h.print_load_message s1)
    cases h.module_register MODULE_NAME "core" s <;> rfl
  refine ⟨?_, ?_, rfl⟩
  · intro e
    rw [unfolded]
    cases hreg : (h.module_register MODULE_NAME "core").run s with
    | error e1 => simp
    | ok p => obtain ⟨u, s1⟩ := p; simp
  · intro s2
    rw [unfolded]
    cases hreg : (h.module_register MODULE_NAME "core").run s with
    | error e1 => simp
    | ok p => obtain ⟨u, s1⟩ := p; simp

/-- C5: the hooks are pass-throughs without branching or state.  The calls a
hook makes, arguments included, are the same for any two hosts, any two host
states and any two earlier histories of hook calls.  In particular a second
`test_init` makes the calls of the first, and `test_init` after `test_deinit`
makes the calls of a first `test_init`; those calls are the fixed lists the
source shows. -/
theorem hook_calls_independent_of_state_and_history {σ τ : Type} (h₁ : StateHost σ)
    (h₂ : StateHost τ) (MODULE_NAME : String) (history₁ history₂ : List Hook) (k : Hook)
    (s₁ : σ) (s₂ : τ) :
    callsAfter h₁ MODULE_NAME history₁ k s₁ = callsAfter h₂ MODULE_NAME history₂ k s₂
    ∧ callsAfter h₁ MODULE_NAME [Hook.init] Hook.init s₁
        = callsAfter h₁ MODULE_NAME [] Hook.init s₁
    ∧ callsAfter h₁ MODULE_NAME [Hook.deinit] Hook.init s₁
        = callsAfter h₁ MODULE_NAME [] Hook.init s₁
    ∧ callsAfter h₁ MODULE_NAME history₁ Hook.init s₁
        = [HostCall.module_register MODULE_NAME "core", HostCall.print_load_message]
    ∧ callsAfter h₁ MODULE_NAME history₁ Hook.deinit s₁ = [HostCall.print_unload_message] := by
  refine ⟨?_, ?_, ?_, callsAfter_init h₁ MODULE_NAME history₁ s₁,
    callsAfter_deinit h₁ MODULE_NAME history₁ s₁⟩
  · cases k
    · rw [callsAfter_init, callsAfter_init]
    · rw [callsAfter_deinit, callsAfter_deinit]
  · rw [callsAfter_init, callsAfter_init]
  · rw [callsAfter_init, callsAfter_init]

/-- C7: when the host calls `test_init` once and then `test_deinit` once, the
complete sequence of host calls is `module_register(MODULE_NAME, "core")`,
`print_load_message()`, `print_unload_message()`, in that order: three calls. -/
theorem lifecycle_calls {σ : Type} (h : StateHost σ) (MODULE_NAME : String) (s : σ) :
    callsMade (runHooks (traced h) MODULE_NAME [Hook.init, Hook.deinit]) s
        = [HostCall.module_register MODULE_NAME "core", HostCall.print_load_message,
            HostCall.print_unload_message]
    ∧ (callsMade (runHooks (traced h) MODULE_NAME [Hook.init, Hook.deinit]) s).length = 3 := by
  have trace : callsMade (runHooks (traced h) MODULE_NAME [Hook.init, Hook.deinit]) s
      = [HostCall.module_register MODULE_NAME "core", HostCall.print_load_message,
          HostCall.print_unload_message] := by
    simp [callsMade, stateAfter_runHooks_cons, stateAfter_runHooks_nil, traced_runHook_init,
      traced_runHook_deinit]
  rw [trace]
  exact ⟨rfl, rfl⟩

/-- C8: in every call of `test_init`, whatever the host, its state and the
earlier hook calls, `module_register(MODULE_NAME, "core")` is called before
`print_load_message()`: both calls are made, the first stands at an earlier
position, and it is already among the calls made before the load message. -/
theorem test_init_registers_before_load_message {σ : Type} (h : StateHost σ)
    (MODULE_NAME : String) (history : List Hook) (s : σ) :
    (callsAfter h MODULE_NAME history Hook.init s).indexOf
        (HostCall.module_register MODULE_NAME "core")
      < (callsAfter h MODULE_NAME history Hook.init s).indexOf HostCall.print_load_message
    ∧ (callsAfter h MODULE_NAME history Hook.init s).indexOf HostCall.print_load_message
      < (callsAfter h MODULE_NAME history Hook.init s).length
    ∧ HostCall.module_register MODULE_NAME "core"
      ∈ (callsAfter h MODULE_NAME history Hook.init s).takeWhile
          (fun c => c != HostCall.print_load_message) := by
  rw [callsAfter_init]
  simp [List.indexOf_cons, List.takeWhile_cons]

end KeyEmitter
